import Mathlib

/-
Verification of the truelayer-rust client library design: the backoff policy,
the polling engine, the authenticator (token cache with single-flight
coalescing), and the redacting Debug formatting of the client internals.

The repository sources available here contain the integration tests, the CLI
caller and the `Debug` implementation of `TrueLayerClientInner`; the bodies of
the authenticator, the polling engine and the backoff policy are consumed by
those tests but are not present, so those components are modelled from the
specification (each such definition is marked `Modelled from the spec:`).
The `Debug` implementation is embedded directly from
`src/truelayer-rust/src/apis/mod.rs`.
-/

namespace Truelayer

/-! ## Backoff policy -/

/-- Modelled from the spec: the Backoff Descriptor (missing from the sources;
only its use via `retry_policies::policies::ExponentialBackoff` in
`tests/integration_tests/payments.rs` is present).  Fields: base delay,
multiplier, maximum per-attempt delay, maximum total elapsed duration.
Durations are in abstract time units (e.g. seconds) as naturals. -/
structure Backoff where
  base : Nat
  multiplier : Nat
  maxPerAttempt : Nat
  maxTotal : Nat
deriving DecidableEq, Repr

/-- Modelled from the spec: `next_delay(attempt_number) -> duration` computes
`delay = min(base * multiplier^(attempt_number-1), max_per_attempt)`. -/
def Backoff.next_delay (b : Backoff) (attempt : Nat) : Nat :=
  min (b.base * b.multiplier ^ (attempt - 1)) b.maxPerAttempt

/-- Modelled from the spec: `is_exhausted(elapsed_total) -> bool` returns true
once the elapsed wall-clock time since the first attempt meets or exceeds the
configured maximum total duration. -/
def Backoff.is_exhausted (b : Backoff) (elapsed : Nat) : Bool :=
  b.maxTotal ≤ elapsed

/-- The Backoff Descriptor used in the spec's backoff-monotonicity test:
base = 1s, multiplier = 2, max-per-attempt = 30s (max total 60s as in the
integration tests). -/
def specBackoff : Backoff := ⟨1, 2, 30, 60⟩

/-- C4: for every Backoff Descriptor with multiplier ≥ 1 and
max-per-attempt ≥ base, and every attempt number n ≥ 1,
`next_delay n = min (base * multiplier^(n-1)) maxPerAttempt`, the delay
sequence is monotonically non-decreasing, and for base=1s, multiplier=2,
max-per-attempt=30s the sequence starts 1s, 2s, 4s, 8s, 16s, 30s, 30s. -/
theorem backoff_next_delay_formula_and_monotone (b : Backoff) (n : Nat)
    (hm : 1 ≤ b.multiplier) (_hc : b.base ≤ b.maxPerAttempt) (_hn : 1 ≤ n) :
    (b.next_delay n = min (b.base * b.multiplier ^ (n - 1)) b.maxPerAttempt ∧
      b.next_delay n ≤ b.next_delay (n + 1)) ∧
    (List.range 7).map (fun k => specBackoff.next_delay (k + 1)) =
      [1, 2, 4, 8, 16, 30, 30] := by
  refine ⟨⟨rfl, ?_⟩, by decide⟩
  unfold Backoff.next_delay
  have hpow : b.multiplier ^ (n - 1) ≤ b.multiplier ^ (n + 1 - 1) :=
    Nat.pow_le_pow_right hm (by omega)
  exact min_le_min (Nat.mul_le_mul_left _ hpow) le_rfl

/-- Witness for C4 at the concrete descriptor base=1, multiplier=2,
max-per-attempt=30, max-total=60 and attempt number 1. -/
theorem backoff_next_delay_formula_and_monotone_witness :
    (specBackoff.next_delay 1 =
        min (specBackoff.base * specBackoff.multiplier ^ (1 - 1))
          specBackoff.maxPerAttempt ∧
      specBackoff.next_delay 1 ≤ specBackoff.next_delay 2) ∧
    (List.range 7).map (fun k => specBackoff.next_delay (k + 1)) =
      [1, 2, 4, 8, 16, 30, 30] :=
  backoff_next_delay_formula_and_monotone specBackoff 1 (by decide) (by decide)
    (by decide)

/-! ## Pollable engine -/

/-- Modelled from the spec: the outcome of a single `fetch_by_id` call seen by
the polling engine: a fresh snapshot, a transient failure (network/transport,
5xx/timeout), or a non-transient failure (404, resource not found). -/
inductive FetchOutcome (α : Type) where
  | ok (s : α)
  | transient
  | notFound
deriving DecidableEq, Repr

/-- Modelled from the spec: the failures surfaced by the polling engine:
`resourceNotFound` for a non-transient fetch failure, `pollTimeout` carrying
the last observed non-terminal snapshot for deadline exhaustion. -/
inductive PollError (α : Type) where
  | resourceNotFound
  | pollTimeout (last : α)
deriving DecidableEq, Repr

/-- Observable trace of one `poll_until_terminal` invocation: the final result,
the number of fetch calls performed, the delays slept (in order, one before
each fetch), and the successfully fetched snapshots (in order). -/
structure PollTrace (α : Type) where
  result : Except (PollError α) α
  fetchCalls : Nat
  sleeps : List Nat
  observed : List α
deriving Repr

/-- Modelled from the spec: the polling loop body of `poll_until_terminal`
(missing from the sources; only its use via `PollableUntilTerminalState` in
`tests/integration_tests/payments.rs` is present).  Starting at the given
attempt number with the given elapsed total, each iteration sleeps
`next_delay attempt`, calls `fetch attempt`; a non-transient failure aborts
with `resourceNotFound`; a transient failure is absorbed as a failed attempt;
a fresh snapshot replaces the current one and is returned if terminal;
otherwise `is_exhausted` on the elapsed total decides between `pollTimeout`
(carrying the last known snapshot) and the next iteration.  `fuel` bounds the
recursion depth; `none` means the bound was hit before the loop decided. -/
def poll_aux {α : Type} (isTerminal : α → Bool) (fetch : Nat → FetchOutcome α)
    (b : Backoff) : Nat → Nat → Nat → α → Option (PollTrace α)
  | 0, _, _, _ => none
  | Nat.succ fuel, attempt, elapsed, s =>
    let d := b.next_delay attempt
    let e := elapsed + d
    match fetch attempt with
    | FetchOutcome.notFound =>
        some { result := Except.error PollError.resourceNotFound,
               fetchCalls := 1, sleeps := [d], observed := [] }
    | FetchOutcome.transient =>
        if b.is_exhausted e then
          some { result := Except.error (PollError.pollTimeout s),
                 fetchCalls := 1, sleeps := [d], observed := [] }
        else
          Option.map
            (fun tr => { result := tr.result, fetchCalls := tr.fetchCalls + 1,
                         sleeps := d :: tr.sleeps, observed := tr.observed })
            (poll_aux isTerminal fetch b fuel (attempt + 1) e s)
    | FetchOutcome.ok s' =>
        if isTerminal s' then
          some { result := Except.ok s', fetchCalls := 1, sleeps := [d],
                 observed := [s'] }
        else if b.is_exhausted e then
          some { result := Except.error (PollError.pollTimeout s'),
                 fetchCalls := 1, sleeps := [d], observed := [s'] }
        else
          Option.map
            (fun tr => { result := tr.result, fetchCalls := tr.fetchCalls + 1,
                         sleeps := d :: tr.sleeps, observed := s' :: tr.observed })
            (poll_aux isTerminal fetch b fuel (attempt + 1) e s')

/-- Modelled from the spec: `poll_until_terminal(snapshot, fetch_by_id,
options)`.  Step 0 (idempotence): an already-terminal snapshot is returned
unchanged with zero fetch calls; otherwise the loop starts with attempt
counter 1 and elapsed total 0. -/
def poll_until_terminal {α : Type} (isTerminal : α → Bool)
    (fetch : Nat → FetchOutcome α) (b : Backoff) (fuel : Nat) (s : α) :
    Option (PollTrace α) :=
  if isTerminal s then
    some { result := Except.ok s, fetchCalls := 0, sleeps := [], observed := [] }
  else
    poll_aux isTerminal fetch b fuel 1 0 s

/-- The last snapshot of a list of observed snapshots, defaulting to the
initial snapshot when no fetch succeeded. -/
def last_observed {α : Type} (s : α) : List α → α
  | [] => s
  | x :: xs => last_observed x xs

/-- Every successful result of the polling loop is a terminal snapshot. -/
theorem poll_aux_ok_terminal {α : Type} (isTerminal : α → Bool)
    (fetch : Nat → FetchOutcome α) (b : Backoff) :
    ∀ (fuel attempt elapsed : Nat) (s : α) (tr : PollTrace α) (s' : α),
      poll_aux isTerminal fetch b fuel attempt elapsed s = some tr →
      tr.result = Except.ok s' → isTerminal s' = true := by
  intro fuel
  induction fuel with
  | zero => intro attempt elapsed s tr s' hrun; simp [poll_aux] at hrun
  | succ n ih =>
    intro attempt elapsed s tr s' hrun hres
    simp only [poll_aux] at hrun
    cases hf : fetch attempt with
    | notFound =>
      simp [hf] at hrun
      subst hrun
      simp at hres
    | transient =>
      cases hex : b.is_exhausted (elapsed + b.next_delay attempt) with
      | true =>
        simp [hf, hex] at hrun
        subst hrun
        simp at hres
      | false =>
        cases hrec : poll_aux isTerminal fetch b n (attempt + 1)
            (elapsed + b.next_delay attempt) s with
        | none => simp [hf, hex, hrec] at hrun
        | some tr0 =>
          simp [hf, hex, hrec] at hrun
          subst hrun
          exact ih _ _ _ _ _ hrec hres
    | ok s1 =>
      cases hterm : isTerminal s1 with
      | true =>
        simp [hf, hterm] at hrun
        subst hrun
        simp at hres
        rw [← hres]
        exact hterm
      | false =>
        cases hex : b.is_exhausted (elapsed + b.next_delay attempt) with
        | true =>
          simp [hf, hterm, hex] at hrun
          subst hrun
          simp at hres
        | false =>
          cases hrec : poll_aux isTerminal fetch b n (attempt + 1)
              (elapsed + b.next_delay attempt) s1 with
          | none => simp [hf, hterm, hex, hrec] at hrun
          | some tr0 =>
            simp [hf, hterm, hex, hrec] at hrun
            subst hrun
            exact ih _ _ _ _ _ hrec hres

/-- A `pollTimeout` result arises only from deadline exhaustion: the elapsed
total at the moment of failure (initial elapsed plus all sleeps performed)
meets `is_exhausted`, the snapshot carried is non-terminal, and it is the last
observed one. -/
theorem poll_aux_timeout_charact {α : Type} (isTerminal : α → Bool)
    (fetch : Nat → FetchOutcome α) (b : Backoff) :
    ∀ (fuel attempt elapsed : Nat) (s : α) (tr : PollTrace α) (s' : α),
      isTerminal s = false →
      poll_aux isTerminal fetch b fuel attempt elapsed s = some tr →
      tr.result = Except.error (PollError.pollTimeout s') →
      b.is_exhausted (elapsed + tr.sleeps.sum) = true ∧
      isTerminal s' = false ∧ s' = last_observed s tr.observed := by
  intro fuel
  induction fuel with
  | zero => intro attempt elapsed s tr s' hs hrun; simp [poll_aux] at hrun
  | succ n ih =>
    intro attempt elapsed s tr s' hs hrun hres
    simp only [poll_aux] at hrun
    cases hf : fetch attempt with
    | notFound =>
      simp [hf] at hrun
      subst hrun
      simp at hres
    | transient =>
      cases hex : b.is_exhausted (elapsed + b.next_delay attempt) with
      | true =>
        simp [hf, hex] at hrun
        subst hrun
        simp at hres
        subst hres
        refine ⟨?_, hs, rfl⟩
        simpa using hex
      | false =>
        cases hrec : poll_aux isTerminal fetch b n (attempt + 1)
            (elapsed + b.next_delay attempt) s with
        | none => simp [hf, hex, hrec] at hrun
        | some tr0 =>
          simp [hf, hex, hrec] at hrun
          subst hrun
          have h := ih _ _ _ _ s' hs hrec hres
          refine ⟨?_, h.2.1, ?_⟩
          · have := h.1
            simpa [Nat.add_assoc] using this
          · simpa using h.2.2
    | ok s1 =>
      cases hterm : isTerminal s1 with
      | true =>
        simp [hf, hterm] at hrun
        subst hrun
        simp at hres
      | false =>
        cases hex : b.is_exhausted (elapsed + b.next_delay attempt) with
        | true =>
          simp [hf, hterm, hex] at hrun
          subst hrun
          simp at hres
          subst hres
          refine ⟨?_, hterm, rfl⟩
          simpa using hex
        | false =>
          cases hrec : poll_aux isTerminal fetch b n (attempt + 1)
              (elapsed + b.next_delay attempt) s1 with
          | none => simp [hf, hterm, hex, hrec] at hrun
          | some tr0 =>
            simp [hf, hterm, hex, hrec] at hrun
            subst hrun
            have h := ih _ _ _ _ s' hterm hrec hres
            refine ⟨?_, h.2.1, ?_⟩
            · have := h.1
              simpa [Nat.add_assoc] using this
            · simpa [last_observed] using h.2.2

/-- A `resourceNotFound` result arises exactly at the first attempt whose
fetch outcome is the non-transient failure: the number of fetch calls
performed identifies that attempt and no earlier attempt returned `notFound`.
-/
theorem poll_aux_notfound_charact {α : Type} (isTerminal : α → Bool)
    (fetch : Nat → FetchOutcome α) (b : Backoff) :
    ∀ (fuel attempt elapsed : Nat) (s : α) (tr : PollTrace α),
      poll_aux isTerminal fetch b fuel attempt elapsed s = some tr →
      tr.result = Except.error (PollError.resourceNotFound) →
      ∃ k, tr.fetchCalls = k + 1 ∧ fetch (attempt + k) = FetchOutcome.notFound ∧
        ∀ j, j < k → fetch (attempt + j) ≠ FetchOutcome.notFound := by
  intro fuel
  induction fuel with
  | zero => intro attempt elapsed s tr hrun; simp [poll_aux] at hrun
  | succ n ih =>
    intro attempt elapsed s tr hrun hres
    simp only [poll_aux] at hrun
    cases hf : fetch attempt with
    | notFound =>
      simp [hf] at hrun
      subst hrun
      exact ⟨0, rfl, by simpa using hf, by omega⟩
    | transient =>
      cases hex : b.is_exhausted (elapsed + b.next_delay attempt) with
      | true =>
        simp [hf, hex] at hrun
        subst hrun
        simp at hres
      | false =>
        cases hrec : poll_aux isTerminal fetch b n (attempt + 1)
            (elapsed + b.next_delay attempt) s with
        | none => simp [hf, hex, hrec] at hrun
        | some tr0 =>
          simp [hf, hex, hrec] at hrun
          subst hrun
          obtain ⟨k, hk, hkf, hprev⟩ := ih _ _ _ _ hrec hres
          refine ⟨k + 1, by simpa using hk, by simpa [Nat.add_assoc, Nat.add_comm,
            Nat.add_left_comm] using hkf, ?_⟩
          intro j hj
          cases j with
          | zero => simpa using hf ▸ (by simp [hf] : fetch (attempt + 0) ≠ FetchOutcome.notFound)
          | succ j0 =>
            have := hprev j0 (by omega)
            simpa [Nat.add_assoc, Nat.add_comm, Nat.add_left_comm] using this
    | ok s1 =>
      cases hterm : isTerminal s1 with
      | true =>
        simp [hf, hterm] at hrun
        subst hrun
        simp at hres
      | false =>
        cases hex : b.is_exhausted (elapsed + b.next_delay attempt) with
        | true =>
          simp [hf, hterm, hex] at hrun
          subst hrun
          simp at hres
        | false =>
          cases hrec : poll_aux isTerminal fetch b n (attempt + 1)
              (elapsed + b.next_delay attempt) s1 with
          | none => simp [hf, hterm, hex, hrec] at hrun
          | some tr0 =>
            simp [hf, hterm, hex, hrec] at hrun
            subst hrun
            obtain ⟨k, hk, hkf, hprev⟩ := ih _ _ _ _ hrec hres
            refine ⟨k + 1, by simpa using hk, by simpa [Nat.add_assoc, Nat.add_comm,
              Nat.add_left_comm] using hkf, ?_⟩
            intro j hj
            cases j with
            | zero => simp [hf]
            | succ j0 =>
              have := hprev j0 (by omega)
              simpa [Nat.add_assoc, Nat.add_comm, Nat.add_left_comm] using this

/-! ## Concrete payment snapshots (spec §3: Executed, Settled, Failed are
terminal; AuthorizationRequired, Authorizing are not) -/

/-- Modelled from the spec: the closed status set of a payment snapshot used
by the integration tests (`PaymentStatus` in
`tests/integration_tests/payments.rs`). -/
inductive PaymentStatus where
  | authorizationRequired
  | authorizing
  | executed
  | settled
  | failed
deriving DecidableEq, Repr

/-- Modelled from the spec: the terminal/non-terminal classification of
payment statuses: Executed, Settled, Failed are terminal; AuthorizationRequired
and Authorizing are not. -/
def PaymentStatus.is_terminal : PaymentStatus → Bool
  | PaymentStatus.executed => true
  | PaymentStatus.settled => true
  | PaymentStatus.failed => true
  | PaymentStatus.authorizationRequired => false
  | PaymentStatus.authorizing => false

/-- Modelled from the spec: a pollable payment snapshot: a stable identifier
plus a status tag. -/
structure Payment where
  id : String
  status : PaymentStatus
deriving DecidableEq, Repr

/-- The terminal-status capability of `Payment` handed to the generic engine. -/
def payment_terminal (p : Payment) : Bool := p.status.is_terminal

/-- C3: for every snapshot whose status is already terminal,
`poll_until_terminal` returns that snapshot unchanged and performs zero fetch
calls. -/
theorem poll_until_terminal_idempotent {α : Type} (isTerminal : α → Bool)
    (fetch : Nat → FetchOutcome α) (b : Backoff) (fuel : Nat) (s : α)
    (h : isTerminal s = true) :
    poll_until_terminal isTerminal fetch b fuel s =
      some { result := Except.ok s, fetchCalls := 0, sleeps := [],
             observed := [] } := by
  simp [poll_until_terminal, h]

/-- Witness for C3 at an already-executed payment and a fetch stub. -/
theorem poll_until_terminal_idempotent_witness :
    poll_until_terminal payment_terminal (fun _ => FetchOutcome.transient)
        specBackoff 5 ⟨"payment-1", PaymentStatus.executed⟩ =
      some { result := Except.ok ⟨"payment-1", PaymentStatus.executed⟩,
             fetchCalls := 0, sleeps := [], observed := [] } :=
  poll_until_terminal_idempotent payment_terminal
    (fun _ => FetchOutcome.transient) specBackoff 5
    ⟨"payment-1", PaymentStatus.executed⟩ rfl

/-- C5: a non-transient fetch failure aborts polling immediately and is
surfaced as `ResourceNotFound`: whenever a run ends in `resourceNotFound`,
the last fetch call performed (attempt number = number of fetch calls) is the
one that returned `notFound` and no earlier attempt did; in particular a fetch
stub returning `notFound` on its first call fails after exactly one fetch. -/
theorem poll_nontransient_abort {α : Type} (isTerminal : α → Bool)
    (fetch : Nat → FetchOutcome α) (b : Backoff) (fuel : Nat) (s : α)
    (tr : PollTrace α)
    (hrun : poll_until_terminal isTerminal fetch b fuel s = some tr) :
    (tr.result = Except.error PollError.resourceNotFound →
      1 ≤ tr.fetchCalls ∧ fetch tr.fetchCalls = FetchOutcome.notFound ∧
      ∀ j, 1 ≤ j → j < tr.fetchCalls → fetch j ≠ FetchOutcome.notFound) ∧
    (isTerminal s = false → fetch 1 = FetchOutcome.notFound →
      tr = { result := Except.error PollError.resourceNotFound, fetchCalls := 1,
             sleeps := [b.next_delay 1], observed := [] }) := by
  cases hterm : isTerminal s with
  | true =>
    simp [poll_until_terminal, hterm] at hrun
    subst hrun
    constructor
    · intro hres; simp at hres
    · intro hs; simp [hterm] at hs
  | false =>
    simp [poll_until_terminal, hterm] at hrun
    constructor
    · intro hres
      obtain ⟨k, hk, hkf, hprev⟩ :=
        poll_aux_notfound_charact isTerminal fetch b fuel 1 0 s tr hrun hres
      refine ⟨by omega, ?_, ?_⟩
      · have : tr.fetchCalls = 1 + k := by omega
        rw [this]; exact hkf
      · intro j hj1 hjlt
        have hj : j - 1 < k := by omega
        have := hprev (j - 1) hj
        have hje : 1 + (j - 1) = j := by omega
        rw [hje] at this
        exact this
    · intro _ hf1
      cases fuel with
      | zero => simp [poll_aux] at hrun
      | succ n =>
        simp only [poll_aux] at hrun
        simp [hf1] at hrun
        subst hrun
        rfl

/-- Witness for C5: a payment fetch stub that returns "not found" on its first
call makes polling fail immediately with `ResourceNotFound` after exactly one
fetch call. -/
theorem poll_nontransient_abort_witness :
    ((PollTrace.mk (α := Payment)
          (Except.error PollError.resourceNotFound) 1 [1] []).result =
        Except.error PollError.resourceNotFound →
      1 ≤ (PollTrace.mk (α := Payment)
          (Except.error PollError.resourceNotFound) 1 [1] []).fetchCalls ∧
      (fun _ => FetchOutcome.notFound (α := Payment)) 1 = FetchOutcome.notFound ∧
      ∀ j, 1 ≤ j → j < 1 → (fun _ => FetchOutcome.notFound (α := Payment)) j ≠
        FetchOutcome.notFound) ∧
    (payment_terminal ⟨"payment-1", PaymentStatus.authorizing⟩ = false →
      (fun _ => FetchOutcome.notFound (α := Payment)) 1 = FetchOutcome.notFound →
      PollTrace.mk (α := Payment)
          (Except.error PollError.resourceNotFound) 1 [1] [] =
        { result := Except.error PollError.resourceNotFound, fetchCalls := 1,
          sleeps := [specBackoff.next_delay 1], observed := [] }) := by
  refine poll_nontransient_abort payment_terminal (fun _ => FetchOutcome.notFound)
    specBackoff 5 ⟨"payment-1", PaymentStatus.authorizing⟩ _ ?_
  rfl

/-- The always-`Authorizing` payment snapshot of the spec's timeout test. -/
def authorizingPayment : Payment := ⟨"payment-1", PaymentStatus.authorizing⟩

/-- The initial non-terminal snapshot used in the polling witnesses. -/
def startPayment : Payment := ⟨"payment-1", PaymentStatus.authorizationRequired⟩

/-- The Backoff Descriptor of the spec's timeout test: base delay 10s,
max-total-duration 5s. -/
def timeoutBackoff : Backoff := ⟨10, 2, 30, 5⟩

/-- The trace of the spec's timeout scenario: one sleep of 10s, one fetch
observing `Authorizing`, then `PollTimeout` carrying that snapshot. -/
def timeoutTrace : PollTrace Payment :=
  { result := Except.error (PollError.pollTimeout authorizingPayment),
    fetchCalls := 1, sleeps := [10], observed := [authorizingPayment] }

/-- C6: `poll_until_terminal` fails with `PollTimeout` only by exhaustion of
the configured maximum total duration (`is_exhausted` holds of the total
elapsed time, i.e. the sum of all sleeps, at the moment of failure), and the
`PollTimeout` error carries the last observed non-terminal snapshot; no other
outcome is a `PollTimeout`: in particular every successful result is a
terminal snapshot, so a run that never exhausts the deadline and never hits a
non-transient failure cannot end in `PollTimeout`. -/
theorem poll_timeout_iff_deadline {α : Type} (isTerminal : α → Bool)
    (fetch : Nat → FetchOutcome α) (b : Backoff) (fuel : Nat) (s : α)
    (tr : PollTrace α)
    (hrun : poll_until_terminal isTerminal fetch b fuel s = some tr) :
    (∀ s', tr.result = Except.error (PollError.pollTimeout s') →
      b.is_exhausted tr.sleeps.sum = true ∧ isTerminal s' = false ∧
      s' = last_observed s tr.observed) ∧
    (∀ s', tr.result = Except.ok s' → isTerminal s' = true) := by
  cases hterm : isTerminal s with
  | true =>
    simp [poll_until_terminal, hterm] at hrun
    subst hrun
    constructor
    · intro s' hres; simp at hres
    · intro s' hres
      simp at hres
      rw [← hres]
      exact hterm
  | false =>
    simp [poll_until_terminal, hterm] at hrun
    constructor
    · intro s' hres
      have h := poll_aux_timeout_charact isTerminal fetch b fuel 1 0 s tr s'
        hterm hrun hres
      refine ⟨?_, h.2.1, h.2.2⟩
      have := h.1
      simpa using this
    · intro s' hres
      exact poll_aux_ok_terminal isTerminal fetch b fuel 1 0 s tr s' hrun hres

/-- Witness for C6 at the spec's timeout scenario: a fetch stub that always
returns `Authorizing` with base delay 10s and max-total-duration 5s times out
after one fetch, carrying the `Authorizing` snapshot. -/
theorem poll_timeout_iff_deadline_witness :
    timeoutBackoff.is_exhausted timeoutTrace.sleeps.sum = true ∧
    payment_terminal authorizingPayment = false ∧
    authorizingPayment = last_observed startPayment timeoutTrace.observed :=
  (poll_timeout_iff_deadline payment_terminal
      (fun _ => FetchOutcome.ok authorizingPayment) timeoutBackoff 3
      startPayment timeoutTrace rfl).1 authorizingPayment rfl

/-- C8: with a fetch function returning non-terminal snapshots on attempts 1
and 2 and a terminal one on attempt 3 (the spec's
AuthorizationRequired → Authorizing → Executed sequence), and a deadline not
exhausted at the first two checks, `poll_until_terminal` from a non-terminal
snapshot returns the third snapshot after exactly 3 fetch calls, sleeping the
backoff-computed delay before each fetch. -/
theorem poll_terminal_convergence {α : Type} (isTerminal : α → Bool)
    (fetch : Nat → FetchOutcome α) (b : Backoff) (f : Nat) (s s1 s2 s3 : α)
    (hs : isTerminal s = false)
    (h1 : fetch 1 = FetchOutcome.ok s1) (h2 : fetch 2 = FetchOutcome.ok s2)
    (h3 : fetch 3 = FetchOutcome.ok s3)
    (t1 : isTerminal s1 = false) (t2 : isTerminal s2 = false)
    (t3 : isTerminal s3 = true)
    (e1 : b.is_exhausted (b.next_delay 1) = false)
    (e2 : b.is_exhausted (b.next_delay 1 + b.next_delay 2) = false) :
    poll_until_terminal isTerminal fetch b (f + 3) s =
      some { result := Except.ok s3, fetchCalls := 3,
             sleeps := [b.next_delay 1, b.next_delay 2, b.next_delay 3],
             observed := [s1, s2, s3] } := by
  have hf3 : f + 3 = Nat.succ (Nat.succ (Nat.succ f)) := rfl
  rw [poll_until_terminal, hf3]
  simp [hs, poll_aux, h1, h2, h3, t1, t2, t3, e1, e2]

/-- The spec's convergence fetch stub: AuthorizationRequired on attempt 1,
Authorizing on attempt 2, Executed on attempt 3. -/
def convergeFetch : Nat → FetchOutcome Payment
  | 1 => FetchOutcome.ok ⟨"payment-1", PaymentStatus.authorizationRequired⟩
  | 2 => FetchOutcome.ok authorizingPayment
  | 3 => FetchOutcome.ok ⟨"payment-1", PaymentStatus.executed⟩
  | _ => FetchOutcome.transient

/-- Witness for C8: the concrete AuthorizationRequired → Authorizing →
Executed fetch stub converges in 3 fetches under the spec's backoff
descriptor. -/
theorem poll_terminal_convergence_witness :
    poll_until_terminal payment_terminal convergeFetch specBackoff (7 + 3)
        startPayment =
      some { result := Except.ok ⟨"payment-1", PaymentStatus.executed⟩,
             fetchCalls := 3,
             sleeps := [specBackoff.next_delay 1, specBackoff.next_delay 2,
               specBackoff.next_delay 3],
             observed := [⟨"payment-1", PaymentStatus.authorizationRequired⟩,
               authorizingPayment,
               ⟨"payment-1", PaymentStatus.executed⟩] } :=
  poll_terminal_convergence payment_terminal convergeFetch specBackoff 7
    startPayment ⟨"payment-1", PaymentStatus.authorizationRequired⟩
    authorizingPayment ⟨"payment-1", PaymentStatus.executed⟩
    rfl rfl rfl rfl rfl rfl rfl rfl rfl

/-! ## Authenticator -/

/-- Modelled from the spec: the error taxonomy surfaced by the authenticator:
`invalidCredentials` (server rejected the exchange), `transportFailure`
(network/timeout), `malformedResponse` (token response missing required
fields). -/
inductive AuthError where
  | invalidCredentials
  | transportFailure
  | malformedResponse
deriving DecidableEq, Repr

/-- Modelled from the spec: a Credential: opaque bearer token string, absolute
expiry timestamp, scope. -/
structure Credential where
  token : String
  expiry : Nat
  scope : String
deriving DecidableEq, Repr

/-- Modelled from the spec: a cached credential counts as valid only beyond
the safety margin: it is treated as expired once `now` reaches
`expiry - margin`. -/
def cred_valid (margin now : Nat) (c : Credential) : Bool :=
  now + margin < c.expiry

/-- Modelled from the spec: the outcome of the external token-exchange call:
a 2xx response parsed to `{access_token, expires_in}` plus the configured
scope, or a typed failure (invalid credentials, network failure, non-2xx
response). -/
inductive ExchangeOutcome where
  | success (token : String) (expiresIn : Nat) (scope : String)
  | failure (e : AuthError)
deriving DecidableEq, Repr

/-- The observable outcome of one `get_token()` call: the value returned to
the caller, the credential cache afterwards, and the number of token-exchange
calls performed (0 or 1). -/
structure GetTokenResult where
  result : Except AuthError Credential
  cacheAfter : Option Credential
  exchangeCalls : Nat
deriving Repr

/-- Modelled from the spec: the exchange step of `get_token`: on success the
cache is overwritten with the new credential (token, absolute expiry =
now + server-reported lifetime, scope); on failure no value is cached and the
failure propagates; the exchange is performed exactly once, never retried
internally. -/
def do_exchange (now : Nat) (cached : Option Credential)
    (exch : ExchangeOutcome) : GetTokenResult :=
  match exch with
  | ExchangeOutcome.success tok life sc =>
      let c : Credential := ⟨tok, now + life, sc⟩
      { result := Except.ok c, cacheAfter := some c, exchangeCalls := 1 }
  | ExchangeOutcome.failure e =>
      { result := Except.error e, cacheAfter := cached, exchangeCalls := 1 }

/-- Modelled from the spec: `get_token()` (the authenticator body is missing
from the sources; only its use via `get_access_token` in
`truelayer-rust/tests/apis/auth.rs` is present).  If a cached credential
exists and is valid beyond the safety margin it is returned immediately with
no network call; otherwise a single token exchange is initiated. -/
def get_token (margin : Nat) (cached : Option Credential) (now : Nat)
    (exch : ExchangeOutcome) : GetTokenResult :=
  match cached with
  | some c =>
      if cred_valid margin now c then
        { result := Except.ok c, cacheAfter := some c, exchangeCalls := 0 }
      else do_exchange now cached exch
  | none => do_exchange now cached exch

/-- C2: with a cached credential, a `get_token()` call strictly before the
instant (expiry − safety margin) performs zero exchange calls and returns the
cached credential with the cache unchanged; a call at or after that instant
performs exactly one token exchange. -/
theorem get_token_cache_validity (margin : Nat) (c : Credential) (now : Nat)
    (exch : ExchangeOutcome) :
    (now < c.expiry - margin →
      get_token margin (some c) now exch =
        { result := Except.ok c, cacheAfter := some c, exchangeCalls := 0 }) ∧
    (c.expiry - margin ≤ now →
      (get_token margin (some c) now exch).exchangeCalls = 1) := by
  constructor
  · intro h
    have hv : cred_valid margin now c = true := by
      unfold cred_valid
      simp only [decide_eq_true_eq]
      omega
    simp [get_token, hv]
  · intro h
    by_cases hm : margin < c.expiry
    · have hv : cred_valid margin now c = false := by
        unfold cred_valid
        simp only [decide_eq_false_iff_not]
        omega
      cases exch with
      | success tok life sc => simp [get_token, hv, do_exchange]
      | failure e => simp [get_token, hv, do_exchange]
    · have hv : cred_valid margin now c = false := by
        unfold cred_valid
        simp only [decide_eq_false_iff_not]
        omega
      cases exch with
      | success tok life sc => simp [get_token, hv, do_exchange]
      | failure e => simp [get_token, hv, do_exchange]

/-- Witness for C2: a credential expiring at 100 with safety margin 10,
queried at 50 (strictly before the instant 90), is answered from the cache
with zero exchange calls; queried at 95 (after the instant 90), one exchange
is performed. -/
theorem get_token_cache_validity_witness :
    get_token 10 (some ⟨"tok", 100, "payments"⟩) 50
        (ExchangeOutcome.success "fresh" 3600 "payments") =
      { result := Except.ok ⟨"tok", 100, "payments"⟩,
        cacheAfter := some ⟨"tok", 100, "payments"⟩, exchangeCalls := 0 } ∧
    (get_token 10 (some ⟨"tok", 100, "payments"⟩) 95
        (ExchangeOutcome.success "fresh" 3600 "payments")).exchangeCalls = 1 :=
  ⟨(get_token_cache_validity 10 ⟨"tok", 100, "payments"⟩ 50
      (ExchangeOutcome.success "fresh" 3600 "payments")).1 (by decide),
    (get_token_cache_validity 10 ⟨"tok", 100, "payments"⟩ 95
      (ExchangeOutcome.success "fresh" 3600 "payments")).2 (by decide)⟩

/-! ## Single-flight coalescing model

The spec's concurrency discipline (one mutual-exclusion mechanism guarding
the cache and the "exchange in progress" flag, waiters coalesced onto the
single in-flight exchange) is modelled as a small event-driven state machine:
callers arrive in an arbitrary interleaving while an exchange may be in
flight, and the completion of the in-flight exchange releases every waiter
with its result. -/

/-- Modelled from the spec: events observed by the authenticator under
concurrency: a caller requests a token (`arrive`), or the single in-flight
exchange resolves (`complete`). -/
inductive SfEvent where
  | arrive (i : Nat)
  | complete (r : ExchangeOutcome)
deriving DecidableEq, Repr

/-- Modelled from the spec: the authenticator's shared state: the credential
cache, the in-flight exchange's waiter list (the "exchange in progress"
flag), the results delivered to callers so far, and the number of
token-exchange calls started. -/
structure SfState where
  cached : Option Credential
  inFlight : Option (List Nat)
  delivered : List (Nat × Except AuthError Credential)
  exchanges : Nat
deriving Repr

/-- Modelled from the spec: a caller that finds no valid cached credential
joins the in-flight exchange's waiter list if one is underway, and otherwise
starts a new exchange (becoming its first waiter). -/
def sf_join (st : SfState) (i : Nat) : SfState :=
  match st.inFlight with
  | some ws => { st with inFlight := some (i :: ws) }
  | none => { st with inFlight := some [i], exchanges := st.exchanges + 1 }

/-- Modelled from the spec: the value every waiter of an exchange receives:
the fresh credential on success, the typed failure otherwise. -/
def outcome_result (now : Nat) (r : ExchangeOutcome) :
    Except AuthError Credential :=
  match r with
  | ExchangeOutcome.success tok life sc => Except.ok ⟨tok, now + life, sc⟩
  | ExchangeOutcome.failure e => Except.error e

/-- Modelled from the spec: the cache after an exchange resolves: overwritten
with the new credential on success, unchanged on failure. -/
def outcome_cache (now : Nat) (cached : Option Credential)
    (r : ExchangeOutcome) : Option Credential :=
  match r with
  | ExchangeOutcome.success tok life sc => some ⟨tok, now + life, sc⟩
  | ExchangeOutcome.failure _ => cached

/-- Modelled from the spec: one atomic step of the authenticator under the
mutual-exclusion discipline.  An arriving caller is answered from a valid
cache without any exchange; otherwise it coalesces onto the in-flight
exchange (or starts one).  A completing exchange updates the cache (success
only) and releases every waiter with the same result, before clearing the
in-flight flag. -/
def sf_step (margin now : Nat) (st : SfState) (ev : SfEvent) : SfState :=
  match ev with
  | SfEvent.arrive i =>
      match st.cached with
      | some c =>
          if cred_valid margin now c then
            { st with delivered := (i, Except.ok c) :: st.delivered }
          else sf_join st i
      | none => sf_join st i
  | SfEvent.complete r =>
      match st.inFlight with
      | some ws =>
          { cached := outcome_cache now st.cached r,
            inFlight := none,
            delivered := ws.map (fun w => (w, outcome_result now r)) ++
              st.delivered,
            exchanges := st.exchanges }
      | none => st

/-- Runs the authenticator state machine over a sequence of events. -/
def sf_run (margin now : Nat) (st : SfState) (evs : List SfEvent) : SfState :=
  evs.foldl (sf_step margin now) st

/-- The authenticator's initial state: empty cache, no in-flight exchange. -/
def sf_init : SfState := ⟨none, none, [], 0⟩

/-- While the cache is empty, every arriving caller joins the waiter list of
the in-flight exchange and no further exchange is started. -/
theorem sf_run_arrivals (margin now : Nat) (callers : List Nat) :
    ∀ (ws : List Nat) (rs : List (Nat × Except AuthError Credential)) (k : Nat),
      sf_run margin now ⟨none, some ws, rs, k⟩ (callers.map SfEvent.arrive) =
        ⟨none, some (callers.reverse ++ ws), rs, k⟩ := by
  induction callers with
  | nil => intro ws rs k; simp [sf_run]
  | cons c rest ih =>
    intro ws rs k
    have hstep : sf_step margin now ⟨none, some ws, rs, k⟩ (SfEvent.arrive c) =
        ⟨none, some (c :: ws), rs, k⟩ := by
      simp [sf_step, sf_join]
    calc sf_run margin now ⟨none, some ws, rs, k⟩
          ((c :: rest).map SfEvent.arrive)
        = sf_run margin now ⟨none, some (c :: ws), rs, k⟩
            (rest.map SfEvent.arrive) := by
          simp [sf_run, hstep]
      _ = ⟨none, some (rest.reverse ++ (c :: ws)), rs, k⟩ := ih _ _ _
      _ = ⟨none, some ((c :: rest).reverse ++ ws), rs, k⟩ := by simp

/-- The full single-flight scenario: from the empty cache, a nonempty batch of
concurrent arrivals followed by the resolution of the exchange starts exactly
one exchange, updates the cache per the outcome, and delivers the same result
to every caller. -/
theorem sf_run_spec (margin now : Nat) (r : ExchangeOutcome) (c : Nat)
    (rest : List Nat) :
    sf_run margin now sf_init
        ((c :: rest).map SfEvent.arrive ++ [SfEvent.complete r]) =
      ⟨outcome_cache now none r, none,
        ((c :: rest).reverse).map (fun w => (w, outcome_result now r)), 1⟩ := by
  have hstep : sf_step margin now sf_init (SfEvent.arrive c) =
      ⟨none, some [c], [], 1⟩ := by
    simp [sf_step, sf_init, sf_join]
  have harr := sf_run_arrivals margin now rest [c]
    ([] : List (Nat × Except AuthError Credential)) 1
  have hsplit : sf_run margin now sf_init
      ((c :: rest).map SfEvent.arrive ++ [SfEvent.complete r]) =
      sf_step margin now
        (sf_run margin now ⟨none, some [c], [], 1⟩ (rest.map SfEvent.arrive))
        (SfEvent.complete r) := by
    simp [sf_run, List.foldl_append, hstep]
  rw [hsplit, harr]
  simp [sf_step]

/-- C1: any batch of N ≥ 2 callers arriving (in any order) while no
credential is cached, with the pending exchange then resolving, performs
exactly one token-exchange call, and every one of the N callers is delivered
the result of that single exchange (the same credential on success, the same
failure otherwise), with exactly one delivery per call. -/
theorem get_token_single_flight (margin now : Nat) (r : ExchangeOutcome)
    (callers : List Nat) (h2 : 2 ≤ callers.length) :
    (sf_run margin now sf_init
        (callers.map SfEvent.arrive ++ [SfEvent.complete r])).exchanges = 1 ∧
    (sf_run margin now sf_init
        (callers.map SfEvent.arrive ++ [SfEvent.complete r])).delivered.length =
      callers.length ∧
    ∀ i ∈ callers, (i, outcome_result now r) ∈
      (sf_run margin now sf_init
        (callers.map SfEvent.arrive ++ [SfEvent.complete r])).delivered := by
  cases callers with
  | nil => simp at h2
  | cons c rest =>
    rw [sf_run_spec]
    refine ⟨rfl, by simp, ?_⟩
    intro i hi
    exact List.mem_map_of_mem _ (List.mem_reverse.mpr hi)

/-- Witness for C1: two concurrent callers (ids 0 and 1) and a successful
exchange: one exchange call, both callers delivered the same credential. -/
theorem get_token_single_flight_witness :
    (sf_run 10 0 sf_init
        ([0, 1].map SfEvent.arrive ++
          [SfEvent.complete (ExchangeOutcome.success "tok" 3600 "payments")])).exchanges
      = 1 ∧
    (sf_run 10 0 sf_init
        ([0, 1].map SfEvent.arrive ++
          [SfEvent.complete (ExchangeOutcome.success "tok" 3600 "payments")])).delivered.length
      = [0, 1].length ∧
    ∀ i ∈ [0, 1],
      (i, outcome_result 0 (ExchangeOutcome.success "tok" 3600 "payments")) ∈
        (sf_run 10 0 sf_init
          ([0, 1].map SfEvent.arrive ++
            [SfEvent.complete (ExchangeOutcome.success "tok" 3600 "payments")])).delivered :=
  get_token_single_flight 10 0 (ExchangeOutcome.success "tok" 3600 "payments")
    [0, 1] (by decide)

/-- C7: a failed token exchange leaves the credential cache unchanged (no
value is cached), propagates the failure to the caller and to every waiter of
that exchange, and performs exactly one exchange call (no internal retry). -/
theorem get_token_failure_no_cache (margin now : Nat) (e : AuthError)
    (cached : Option Credential) (callers : List Nat)
    (hc : ∀ c, cached = some c → cred_valid margin now c = false)
    (hne : callers ≠ []) :
    get_token margin cached now (ExchangeOutcome.failure e) =
      { result := Except.error e, cacheAfter := cached, exchangeCalls := 1 } ∧
    (sf_run margin now sf_init
        (callers.map SfEvent.arrive ++
          [SfEvent.complete (ExchangeOutcome.failure e)])).cached = none ∧
    (sf_run margin now sf_init
        (callers.map SfEvent.arrive ++
          [SfEvent.complete (ExchangeOutcome.failure e)])).exchanges = 1 ∧
    ∀ i ∈ callers, (i, Except.error (ε := AuthError) (α := Credential) e) ∈
      (sf_run margin now sf_init
        (callers.map SfEvent.arrive ++
          [SfEvent.complete (ExchangeOutcome.failure e)])).delivered := by
  refine ⟨?_, ?_⟩
  · cases hcc : cached with
    | none => simp [get_token, do_exchange]
    | some c =>
      have hv := hc c hcc
      simp [get_token, hv, do_exchange]
  · cases callers with
    | nil => exact absurd rfl hne
    | cons c rest =>
      rw [sf_run_spec]
      refine ⟨by simp [outcome_cache], rfl, ?_⟩
      intro i hi
      have : (i, outcome_result now (ExchangeOutcome.failure e)) ∈
          ((c :: rest).reverse).map
            (fun w => (w, outcome_result now (ExchangeOutcome.failure e))) :=
        List.mem_map_of_mem _ (List.mem_reverse.mpr hi)
      simpa [outcome_result] using this

/-- Witness for C7: an invalid-credentials failure with an empty cache and a
single waiting caller. -/
theorem get_token_failure_no_cache_witness :
    get_token 10 none 0 (ExchangeOutcome.failure AuthError.invalidCredentials) =
      { result := Except.error AuthError.invalidCredentials, cacheAfter := none,
        exchangeCalls := 1 } ∧
    (sf_run 10 0 sf_init
        ([0].map SfEvent.arrive ++
          [SfEvent.complete (ExchangeOutcome.failure AuthError.invalidCredentials)])).cached
      = none ∧
    (sf_run 10 0 sf_init
        ([0].map SfEvent.arrive ++
          [SfEvent.complete (ExchangeOutcome.failure AuthError.invalidCredentials)])).exchanges
      = 1 ∧
    ∀ i ∈ [0],
      (i, Except.error (ε := AuthError) (α := Credential)
          AuthError.invalidCredentials) ∈
        (sf_run 10 0 sf_init
          ([0].map SfEvent.arrive ++
            [SfEvent.complete (ExchangeOutcome.failure AuthError.invalidCredentials)])).delivered :=
  get_token_failure_no_cache 10 0 AuthError.invalidCredentials none [0]
    (fun c h => by simp at h) (by simp)

/-! ## Token-exchange response classification -/

/-- Modelled from the spec: the body of a token-exchange response,
`{access_token, token_type, expires_in}`, each field possibly missing. -/
structure TokenBody where
  access_token : Option String
  token_type : Option String
  expires_in : Option Nat
deriving DecidableEq, Repr

/-- Modelled from the spec: an HTTP token-exchange response: status code plus
body. -/
structure HttpResponse where
  status : Nat
  body : TokenBody
deriving DecidableEq, Repr

/-- Modelled from the spec: classification of a token-exchange response.  A
2xx response parses to the token and lifetime (missing required fields ⇒
`malformedResponse`); a non-2xx response yields `invalidCredentials` for a
4xx (bad credentials) and `transportFailure` otherwise. -/
def classify_exchange_response (resp : HttpResponse) :
    Except AuthError (String × Nat) :=
  if 200 ≤ resp.status ∧ resp.status < 300 then
    match resp.body.access_token, resp.body.expires_in with
    | some tok, some life => Except.ok (tok, life)
    | _, _ => Except.error AuthError.malformedResponse
  else if 400 ≤ resp.status ∧ resp.status < 500 then
    Except.error AuthError.invalidCredentials
  else Except.error AuthError.transportFailure

/-- C9: every token-exchange response with a non-2xx HTTP status fails with
the typed error `InvalidCredentials` when the status is a 4xx, and with
`TransportFailure` otherwise; the surfaced error is always one of these two
inspectable variants. -/
theorem classify_non_2xx (resp : HttpResponse)
    (h : ¬(200 ≤ resp.status ∧ resp.status < 300)) :
    ((400 ≤ resp.status ∧ resp.status < 500) →
      classify_exchange_response resp =
        Except.error AuthError.invalidCredentials) ∧
    (¬(400 ≤ resp.status ∧ resp.status < 500) →
      classify_exchange_response resp =
        Except.error AuthError.transportFailure) ∧
    (classify_exchange_response resp =
        Except.error AuthError.invalidCredentials ∨
      classify_exchange_response resp =
        Except.error AuthError.transportFailure) := by
  by_cases h4 : 400 ≤ resp.status ∧ resp.status < 500
  · refine ⟨fun _ => ?_, fun hn => absurd h4 hn, Or.inl ?_⟩ <;>
      simp [classify_exchange_response, h, h4]
  · refine ⟨fun hy => absurd hy h4, fun _ => ?_, Or.inr ?_⟩ <;>
      simp [classify_exchange_response, h, h4]

/-- Witness for C9 at a 400 response with the mock server's
`invalid_client` error body (no token fields). -/
theorem classify_non_2xx_witness :
    ((400 ≤ (HttpResponse.mk 400 ⟨none, none, none⟩).status ∧
        (HttpResponse.mk 400 ⟨none, none, none⟩).status < 500) →
      classify_exchange_response ⟨400, none, none, none⟩ =
        Except.error AuthError.invalidCredentials) ∧
    (¬(400 ≤ (HttpResponse.mk 400 ⟨none, none, none⟩).status ∧
        (HttpResponse.mk 400 ⟨none, none, none⟩).status < 500) →
      classify_exchange_response ⟨400, none, none, none⟩ =
        Except.error AuthError.transportFailure) ∧
    (classify_exchange_response ⟨400, none, none, none⟩ =
        Except.error AuthError.invalidCredentials ∨
      classify_exchange_response ⟨400, none, none, none⟩ =
        Except.error AuthError.transportFailure) :=
  classify_non_2xx ⟨400, none, none, none⟩ (by decide)

/-! ## Debug formatting of TrueLayerClientInner

Embedded from `src/truelayer-rust/src/apis/mod.rs`: `TrueLayerClientInner`
holds the HTTP client, the authenticator and the environment, and its `Debug`
implementation prints a `debug_struct` with the single field `environment`
followed by `finish_non_exhaustive()`. -/

/-- The environment the client points at (only its printable representation
matters here). -/
structure Environment where
  auth_url : String
  payments_url : String
  hpp_url : String
deriving DecidableEq, Repr

/-- The debug representation of an `Environment` (stands for its derived
`Debug` output; the exact shape is irrelevant to the redaction property). -/
def Environment.debug_str (e : Environment) : String :=
  "Environment \x7b auth_url: " ++ e.auth_url ++ ", payments_url: " ++
    e.payments_url ++ ", hpp_url: " ++ e.hpp_url ++ " \x7d"

/-- The HTTP client held by the client inner state (it may carry secrets in
headers; only its presence matters here). -/
structure ClientWithMiddleware where
  default_headers : List (String × String)
deriving DecidableEq, Repr

/-- The authenticator held by the client inner state: the configured client
secret and the credential cache (both secret-bearing). -/
structure Authenticator where
  client_secret : String
  cached : Option Credential
deriving DecidableEq, Repr

/-- Embeds `struct TrueLayerClientInner` from
`src/truelayer-rust/src/apis/mod.rs`: the HTTP client, the authenticator and
the environment. -/
structure TrueLayerClientInner where
  client : ClientWithMiddleware
  authenticator : Authenticator
  environment : Environment
deriving DecidableEq, Repr

/-- Embeds `impl Debug for TrueLayerClientInner` from
`src/truelayer-rust/src/apis/mod.rs`:
`f.debug_struct("TrueLayerClientInner").field("environment",
&self.environment).finish_non_exhaustive()`, whose single-line rendering is
`TrueLayerClientInner \x7b environment: <env>, .. \x7d`. -/
def TrueLayerClientInner.debug_fmt (i : TrueLayerClientInner) : String :=
  "TrueLayerClientInner \x7b environment: " ++ i.environment.debug_str ++
    ", .. \x7d"

/-- C10: the Debug formatting of `TrueLayerClientInner` outputs only the
environment field and the non-exhaustive marker `..`; it is independent of
the authenticator (cached credential and client secret) and of the HTTP
client, so no bearer token or secret can appear in the debug output. -/
theorem debug_fmt_redacts_secrets :
    (∀ (i : TrueLayerClientInner),
      i.debug_fmt =
        "TrueLayerClientInner \x7b environment: " ++
          i.environment.debug_str ++ ", .. \x7d") ∧
    (∀ (i : TrueLayerClientInner) (cl : ClientWithMiddleware)
        (a : Authenticator),
      TrueLayerClientInner.debug_fmt ⟨cl, a, i.environment⟩ = i.debug_fmt) :=
  ⟨fun _ => rfl, fun _ _ _ => rfl⟩

end Truelayer
